import Mathlib

/-!
Verification of the nix-sigman NarInfo codec, signature engine, key-file
parsing, conditional resigner and resigning gateway, shallowly embedded from
the Go sources.  Byte strings are modelled as `List Char` (`Str`); raw byte
sequences as `List Nat` (`Bytes`).  All definitions are executable and use
structural recursion so that concrete instances evaluate by `decide`/`rfl`.
-/

set_option maxRecDepth 20000
set_option maxHeartbeats 4000000

namespace NixSigman

/-- Byte strings of the Go program, modelled as lists of characters. -/
abbrev Str := List Char

/-- Conversion from a Lean string literal to the `Str` model. -/
def str (s : String) : Str := s.data

/-- Raw byte sequences (`[]byte` holding non-text data). -/
abbrev Bytes := List Nat

/-- Character class of Go's `unicode.IsSpace` restricted to the Latin-1
range (space, tab, newline, vertical tab, form feed, carriage return, NEL,
NBSP); the further Unicode category-Z code points never occur in the byte
strings the program handles. -/
def goIsSpace (c : Char) : Bool :=
  c = ' ' || c = '\t' || c = '\n' || c = Char.ofNat 11 || c = Char.ofNat 12 ||
  c = Char.ofNat 13 || c = Char.ofNat 133 || c = Char.ofNat 160

/-- Drop leading characters satisfying `p` (helper for `goTrimSpace`). -/
def dropLeading (p : Char → Bool) : Str → Str
  | [] => []
  | c :: cs => if p c then dropLeading p cs else c :: cs

/-- Go `strings.TrimSpace`: drop leading and trailing white space. -/
def goTrimSpace (s : Str) : Str :=
  dropLeading goIsSpace ((dropLeading goIsSpace s.reverse).reverse)

/-- Go `strings.Split` with a single-character separator (the program only
splits on `"\n"`, `" "`, `","`, `"&"`, `"/"`). Always returns a non-empty
list of fields. -/
def splitOnChar (c : Char) : Str → List Str
  | [] => [[]]
  | x :: xs =>
    if x = c then [] :: splitOnChar c xs
    else
      match splitOnChar c xs with
      | [] => [[x]]
      | s :: rest => (x :: s) :: rest

/-- Go `strings.Join` / `strings.Intercalate` with separator `sep`. -/
def joinSep (sep : Str) : List Str → Str
  | [] => []
  | [x] => x
  | x :: xs => x ++ sep ++ joinSep sep xs

/-- Go `strings.Cut` at the first occurrence of character `c`: returns the
text before and after the first `c`, or `none` when `c` does not occur. -/
def cutAt (c : Char) : Str → Option (Str × Str)
  | [] => none
  | x :: xs =>
    if x = c then some ([], xs)
    else
      match cutAt c xs with
      | some p => some (x :: p.1, p.2)
      | none => none

/-- Go `strings.HasPrefix`. -/
def startsWith : Str → Str → Bool
  | _, [] => true
  | [], _ :: _ => false
  | x :: xs, y :: ys => x = y && startsWith xs ys

/-- Go `strings.HasSuffix`. -/
def endsWith (s suf : Str) : Bool := startsWith s.reverse suf.reverse

/-- Go `strings.CutSuffix`: remove `suf` when `s` ends with it, otherwise
return `s` unchanged. -/
def cutSuffix (s suf : Str) : Str :=
  if endsWith s suf then s.take (s.length - suf.length) else s

/-- Decimal digit character of a value `< 10`. -/
def digitChar (n : Nat) : Char := Char.ofNat (48 + n)

/-- Digit expansion helper: `fuel` bounds the recursion, one digit is
produced per division by ten. -/
def natCharsAux : Nat → Nat → Str
  | 0, _ => []
  | _ + 1, 0 => []
  | fuel + 1, n => natCharsAux fuel (n / 10) ++ [digitChar (n % 10)]

/-- Decimal rendering of a natural number (Go `fmt.Sprintf("%d", n)` for the
`uint64` sizes of the program; 32 digits of fuel cover the 64-bit range). -/
def natToChars (n : Nat) : Str :=
  if n = 0 then [digitChar 0] else natCharsAux 32 n

/-- Value of a decimal digit character. -/
def digitVal (c : Char) : Option Nat :=
  if 48 ≤ c.toNat && c.toNat ≤ 57 then some (c.toNat - 48) else none

/-- Accumulating decimal parser (helper for `parseUint64`). -/
def parseDecAux : Str → Nat → Option Nat
  | [], acc => some acc
  | c :: cs, acc =>
    match digitVal c with
    | some d => parseDecAux cs (acc * 10 + d)
    | none => none

/-- Go `strconv.ParseUint(s, 10, 64)`: rejects the empty string, any
non-digit character, and values not representable in 64 bits. -/
def parseUint64 (s : Str) : Option Nat :=
  match s with
  | [] => none
  | _ =>
    match parseDecAux s 0 with
    | some n => if n < 2 ^ 64 then some n else none
    | none => none

/-- Standard base64 alphabet (Go `encoding/base64.StdEncoding`). -/
def base64Chars : Str :=
  str ("ABCDEFGHIJKLMNOPQRSTUVWXYZabcdefghijklmnopqrstuvwxyz0123456789+/")

/-- Character of a 6-bit value in the standard base64 alphabet. -/
def base64Digit (v : Nat) : Char := base64Chars.getD v 'A'

/-- Value of a character in the standard base64 alphabet. -/
def base64Val (c : Char) : Option Nat :=
  if 65 ≤ c.toNat && c.toNat ≤ 90 then some (c.toNat - 65)
  else if 97 ≤ c.toNat && c.toNat ≤ 122 then some (c.toNat - 97 + 26)
  else if 48 ≤ c.toNat && c.toNat ≤ 57 then some (c.toNat - 48 + 52)
  else if c = '+' then some 62
  else if c = '/' then some 63
  else none

/-- Go `base64.StdEncoding.EncodeToString`: three bytes per four characters,
`=` padding on the final group. -/
def base64Encode : Bytes → Str
  | [] => []
  | [a] => [base64Digit (a / 4), base64Digit (a % 4 * 16), '=', '=']
  | [a, b] =>
    [base64Digit (a / 4), base64Digit (a % 4 * 16 + b / 16),
     base64Digit (b % 16 * 4), '=']
  | a :: b :: c :: rest =>
    [base64Digit (a / 4), base64Digit (a % 4 * 16 + b / 16),
     base64Digit (b % 16 * 4 + c / 64), base64Digit (c % 64)] ++ base64Encode rest

/-- Decode one full base64 quad (no padding characters). -/
def base64Quad (a b c d : Char) : Option Bytes :=
  match base64Val a, base64Val b, base64Val c, base64Val d with
  | some va, some vb, some vc, some vd =>
    some [va * 4 + vb / 16, vb % 16 * 16 + vc / 4, vc % 4 * 64 + vd]
  | _, _, _, _ => none

/-- Quad-by-quad base64 decoding with `=` padding allowed only in the final
group; like Go's default (non-`Strict`) decoder, unused trailing bits in the
final group are discarded without being checked. -/
def base64DecodeAux : Str → Option Bytes
  | [] => some []
  | [a, b, c, d] =>
    if d = '=' then
      if c = '=' then
        match base64Val a, base64Val b with
        | some va, some vb => some [va * 4 + vb / 16]
        | _, _ => none
      else
        match base64Val a, base64Val b, base64Val c with
        | some va, some vb, some vc =>
          some [va * 4 + vb / 16, vb % 16 * 16 + vc / 4]
        | _, _, _ => none
    else base64Quad a b c d
  | a :: b :: c :: d :: rest =>
    if a = '=' || b = '=' || c = '=' || d = '=' then none
    else
      match base64Quad a b c d, base64DecodeAux rest with
      | some bs, some more => some (bs ++ more)
      | _, _ => none
  | _ => none

/-- Go `base64.StdEncoding.DecodeString` (newlines are skipped before
decoding, as in Go). -/
def base64Decode (s : Str) : Option Bytes :=
  base64DecodeAux (s.filter (fun c => !(c = '\n' || c = '\r')))

/-- The Nix base32 alphabet used by `zombiezen.com/go/nix/nixbase32`. -/
def nix32Chars : Str := str ("0123456789abcdfghijklmnpqrsvwxyz")

/-- Index of a character within a string, used for alphabet lookups. -/
def charIndexAux (c : Char) : Str → Nat → Option Nat
  | [], _ => none
  | x :: xs, i => if x = c then some i else charIndexAux c xs (i + 1)

/-- Value of a character in the nix32 alphabet. -/
def nix32Val (c : Char) : Option Nat := charIndexAux c nix32Chars 0

/-- Fold a nix32 string (most significant character first) to the natural
number carrying its bit stream. -/
def nix32Acc : Str → Nat → Option Nat
  | [], acc => some acc
  | c :: cs, acc =>
    match nix32Val c with
    | some v => nix32Acc cs (acc * 32 + v)
    | none => none

/-- nixbase32 decoding: characters are consumed from the tail of the string,
five bits each, packed low-to-high into `len*5/8` bytes; a character outside
the alphabet or non-zero bits beyond the output length fail the decode. -/
def nix32Decode (s : Str) : Option Bytes :=
  match nix32Acc s 0 with
  | none => none
  | some n =>
    let size := s.length * 5 / 8
    if n / 256 ^ size = 0 then
      some ((List.range size).map (fun i => n / 256 ^ i % 256))
    else none

/-- Little-endian byte sequence to natural number. -/
def bytesToNatLE (bs : Bytes) : Nat := bs.foldr (fun b acc => b + 256 * acc) 0

/-- nixbase32 encoding: `ceil(len*8/5)` characters, highest quintet first. -/
def nix32Encode (bs : Bytes) : Str :=
  let L := (bs.length * 8 + 4) / 5
  let n := bytesToNatLE bs
  (List.range L).map (fun i => nix32Chars.getD (n / 32 ^ (L - 1 - i) % 32) '0')

/-- Value of a hexadecimal digit (both cases), Go `encoding/hex`. -/
def hexVal (c : Char) : Option Nat :=
  if 48 ≤ c.toNat && c.toNat ≤ 57 then some (c.toNat - 48)
  else if 97 ≤ c.toNat && c.toNat ≤ 102 then some (c.toNat - 97 + 10)
  else if 65 ≤ c.toNat && c.toNat ≤ 70 then some (c.toNat - 65 + 10)
  else none

/-- Go `hex.DecodeString`: even length, two hex digits per byte. -/
def hexDecode : Str → Option Bytes
  | [] => some []
  | a :: b :: rest =>
    match hexVal a, hexVal b, hexDecode rest with
    | some x, some y, some r => some ((x * 16 + y) :: r)
    | _, _, _ => none
  | [_] => none

/-- One step of Go `path.Clean`'s segment processing: the accumulator is the
stack of emitted segments in reverse order. Empty and `.` segments vanish;
`..` pops a segment when possible (at the root it vanishes when the path is
rooted, and accumulates otherwise). -/
def cleanStep (rooted : Bool) (stack : List Str) (seg : Str) : List Str :=
  if seg = [] || seg = str (".") then stack
  else if seg = str ("..") then
    match stack with
    | [] => if rooted then [] else [str ("..")]
    | top :: rest =>
      if top = str ("..") then seg :: stack
      else rest
  else seg :: stack

/-- Go `path.Clean` via its segment semantics: split on `/`, process the
segments, rejoin; the result is `.` when nothing remains and the path is not
rooted. -/
def goPathClean (p : Str) : Str :=
  if p = [] then str (".")
  else
    let rooted := startsWith p (str ("/"))
    let stack := (splitOnChar '/' p).foldl (cleanStep rooted) []
    let body := joinSep (str ("/")) stack.reverse
    if rooted then '/' :: body
    else if body = [] then str (".") else body

/-- Portion of `p` up to and including its final `/`, or `[]` when `p` has
no slash (the `dir` part of Go `path.Split`). -/
def dirPortion (p : Str) : Str :=
  let rev := p.reverse
  (rev.dropWhile (fun c => !(c = '/'))).reverse

/-- Go `path.Dir`: `Clean` of everything up to the final slash; `.` when the
path holds no slash. -/
def goPathDir (p : Str) : Str := goPathClean (dirPortion p)

/-- Go `path.Join` of two elements: empty elements are skipped, the rest are
joined with `/` and cleaned; the result of joining nothing is the empty
string. -/
def goPathJoin (a b : Str) : Str :=
  let joined := joinSep (str ("/")) ([a, b].filter (fun e => !(e = [])))
  if joined = [] then [] else goPathClean joined

/-- Go `map[string]string`, modelled as an association list: assignment
overwrites the value of an existing key in place and otherwise appends.
Iteration order of a Go map is unspecified; iterating this list fixes one
admissible order. -/
abbrev GoMap := List (Str × Str)

/-- Assignment `m[k] = v` on a Go map. -/
def goMapInsert (m : GoMap) (k v : Str) : GoMap :=
  match m with
  | [] => [(k, v)]
  | (k', v') :: rest =>
    if k' = k then (k, v) :: rest else (k', v') :: goMapInsert rest k v

/-- Go `lo.HasKey`. -/
def goMapHasKey (m : GoMap) (k : Str) : Bool := m.any (fun p => p.1 == k)

/-- `TypedNixHash`: a hash name together with raw hash bytes. -/
structure TypedNixHash where
  hashName : Str
  hash : Bytes
deriving DecidableEq

/-- `TypedNixHash.String`: empty when the hash name is empty, otherwise
`name:nix32(hash)`. -/
def TypedNixHash.string (n : TypedNixHash) : Str :=
  if n.hashName.length = 0 then []
  else n.hashName ++ ':' :: nix32Encode n.hash

/-- `TypedNixHash.UnmarshalText`: split at the first `:`; decode the value as
nix32 and fall back to hex when that fails. -/
def TypedNixHash.unmarshalText (text : Str) : Option TypedNixHash :=
  match cutAt ':' text with
  | none => none
  | some p =>
    match nix32Decode p.2 with
    | some bs => some { hashName := p.1, hash := bs }
    | none =>
      match hexDecode p.2 with
      | some bs => some { hashName := p.1, hash := bs }
      | none => none

/-- `NixSignature`: a key name together with raw signature bytes. -/
structure NixSignature where
  keyName : Str
  signature : Bytes
deriving DecidableEq

/-- `NixSignature.String`: empty for an empty signature, otherwise
`name:base64(signature)`. -/
def NixSignature.string (n : NixSignature) : Str :=
  if n.signature.length = 0 then []
  else n.keyName ++ ':' :: base64Encode n.signature

/-- `NixSignature.UnmarshalText`: split at the first `:` and base64-decode
the value. -/
def NixSignature.unmarshalText (text : Str) : Option NixSignature :=
  match cutAt ':' text with
  | none => none
  | some p =>
    match base64Decode p.2 with
    | some bs => some { keyName := p.1, signature := bs }
    | none => none

/-- `NamedPublicKey`: `name` plus 32 bytes of Ed25519 public key material. -/
structure NamedPublicKey where
  keyName : Str
  key : Bytes
deriving DecidableEq

/-- `NamedPublicKey.UnmarshalText`: `name:base64(key)` with the key material
exactly 32 bytes long. -/
def NamedPublicKey.unmarshalText (text : Str) : Option NamedPublicKey :=
  match cutAt ':' text with
  | none => none
  | some p =>
    match base64Decode p.2 with
    | none => none
    | some bs =>
      if bs.length = 32 then some { keyName := p.1, key := bs } else none

/-- Parsed private key as it appears in key files: `name` plus 64 bytes of
Ed25519 private key material. -/
structure ParsedPrivateKey where
  keyName : Str
  key : Bytes
deriving DecidableEq

/-- `NamedPrivateKey.UnmarshalText`: `name:base64(key)` with the key material
exactly 64 bytes long. -/
def ParsedPrivateKey.unmarshalText (text : Str) : Option ParsedPrivateKey :=
  match cutAt ':' text with
  | none => none
  | some p =>
    match base64Decode p.2 with
    | none => none
    | some bs =>
      if bs.length = 64 then some { keyName := p.1, key := bs } else none

/-- The Ed25519 primitives of `crypto/ed25519` as an abstract deterministic
signature scheme: a private-key type, public-key derivation, signing
(deterministic per RFC 8032, and total — the error return of
`PrivateKey.Sign` is impossible with default options), verification, and the
correctness of verification on honestly produced signatures. Every theorem
quantified over a scheme in particular holds for real Ed25519. -/
structure EdScheme where
  Priv : Type
  pubOf : Priv → Bytes
  edSign : Priv → Str → Bytes
  edVerify : Bytes → Str → Bytes → Bool
  correct : ∀ sk msg, edVerify (pubOf sk) msg (edSign sk msg) = true

/-- `NamedPrivateKey` for signing operations: a name plus scheme key. -/
structure NamedPrivateKey (S : EdScheme) where
  keyName : Str
  key : S.Priv

/-- `NamedPrivateKey.PublicKey`: same name, derived public half. -/
def NamedPrivateKey.publicKey {S : EdScheme} (k : NamedPrivateKey S) :
    NamedPublicKey :=
  { keyName := k.keyName, key := S.pubOf k.key }

/-- The `NarInfo` manifest. `order` records the order fields were read in
(as in the source it is written by `UnmarshalText` and unused by
`MarshalText`). -/
structure NarInfo where
  storePath : Str := []
  url : Str := []
  compression : Str := []
  fileHash : TypedNixHash := { hashName := [], hash := [] }
  fileSize : Nat := 0
  narHash : TypedNixHash := { hashName := [], hash := [] }
  narSize : Nat := 0
  references : List Str := []
  deriver : Str := []
  sig : List NixSignature := []
  extra : GoMap := []
  order : List Str := []
deriving DecidableEq

/-- The zero `NarInfo` value (`&NarInfo{}`). -/
def narInfoEmpty : NarInfo := {}

/-- `NarInfo.Fingerprint`: the byte string signed or verified for a
manifest. -/
def NarInfo.fingerprint (n : NarInfo) : Str :=
  let storeRoot := goPathDir n.storePath
  let references := n.references.map (fun ref => goPathJoin storeRoot ref)
  str ("1;") ++ n.storePath ++ str (";") ++ n.narHash.string ++ str (";") ++
    natToChars n.narSize ++ str (";") ++ joinSep (str (",")) references

/-- `NarInfo.Verify`: the signatures whose bytes verify against the
fingerprint under the given key, and whether there was any. -/
def NarInfo.verify (S : EdScheme) (n : NarInfo) (key : NamedPublicKey) :
    Bool × List NixSignature :=
  let fingerprint := n.fingerprint
  let matched := n.sig.filter (fun s => S.edVerify key.key fingerprint s.signature)
  (0 < matched.length, matched)

/-- `NarInfo.MakeSignature`: produce (but do not apply) a signature over the
fingerprint, named after the signing key. -/
def NarInfo.makeSignature (S : EdScheme) (n : NarInfo)
    (key : NamedPrivateKey S) : NixSignature :=
  { keyName := key.keyName, signature := S.edSign key.key n.fingerprint }

/-- `NarInfo.Sign`: append a freshly made signature unless an entry with
identical name and bytes is already present (then report `added = false`).
Returns `(added, signature, updated manifest)`. -/
def NarInfo.sign (S : EdScheme) (n : NarInfo) (key : NamedPrivateKey S) :
    Bool × NixSignature × NarInfo :=
  let s := n.makeSignature S key
  if n.sig.any (fun e => e.keyName == s.keyName && e.signature == s.signature)
  then (false, s, n)
  else (true, s, { n with sig := n.sig ++ [s] })

/-- `NarInfo.RemoveSigsByNames`: drop every signature whose name is listed. -/
def NarInfo.removeSigsByNames (names : List Str) (n : NarInfo) : NarInfo :=
  { n with sig := n.sig.filter (fun item => !(names.any (fun k => k == item.keyName))) }

/-- `NarInfo.SignReplaceByName`: like `Sign`, but when the first entry
sharing the key's name carries different bytes, all entries with that name
are removed before appending the new signature. -/
def NarInfo.signReplaceByName (S : EdScheme) (n : NarInfo)
    (key : NamedPrivateKey S) : Bool × NixSignature × NarInfo :=
  let s := n.makeSignature S key
  match n.sig.find? (fun e => e.keyName == s.keyName) with
  | none => (true, s, { n with sig := n.sig ++ [s] })
  | some e =>
    if e.signature == s.signature then (false, s, n)
    else
      let n' := n.removeSigsByNames [key.keyName]
      (true, s, { n' with sig := n'.sig ++ [s] })

/-- One line of `NarInfo.UnmarshalText`'s loop: trim, skip empty lines, cut
at the first `:`, record the field in `order`, and dispatch. An uncut
non-empty line or a malformed field value is an error carrying the source
text. -/
def narInfoApplyLine (n : NarInfo) (rawLine : Str) : Except Str NarInfo :=
  let line := goTrimSpace rawLine
  if line = [] then .ok n
  else
    match cutAt ':' line with
    | none => .error line
    | some fv =>
      let field := goTrimSpace fv.1
      let value := goTrimSpace fv.2
      let n := { n with order := n.order ++ [field] }
      if field = str ("StorePath") then .ok { n with storePath := value }
      else if field = str ("URL") then .ok { n with url := value }
      else if field = str ("Compression") then .ok { n with compression := value }
      else if field = str ("FileHash") then
        match TypedNixHash.unmarshalText value with
        | some h => .ok { n with fileHash := h }
        | none => .error line
      else if field = str ("FileSize") then
        match parseUint64 value with
        | some r => .ok { n with fileSize := r }
        | none => .error line
      else if field = str ("NarHash") then
        match TypedNixHash.unmarshalText value with
        | some h => .ok { n with narHash := h }
        | none => .error line
      else if field = str ("NarSize") then
        match parseUint64 value with
        | some r => .ok { n with narSize := r }
        | none => .error line
      else if field = str ("References") then
        .ok (if value = [] then n else { n with references := splitOnChar ' ' value })
      else if field = str ("Deriver") then .ok { n with deriver := value }
      else if field = str ("Sig") then
        if value = [] then .ok n
        else
          let rec addSigs (n : NarInfo) : List Str → Except Str NarInfo
            | [] => .ok n
            | sigStr :: rest =>
              match NixSignature.unmarshalText sigStr with
              | some s => addSigs { n with sig := n.sig ++ [s] } rest
              | none => .error sigStr
          addSigs n (splitOnChar ' ' value)
      else .ok { n with extra := goMapInsert n.extra field value }

/-- The line loop of `NarInfo.UnmarshalText`. -/
def narInfoDecodeLines (n : NarInfo) : List Str → Except Str NarInfo
  | [] => .ok n
  | l :: rest =>
    match narInfoApplyLine n l with
    | .ok n' => narInfoDecodeLines n' rest
    | .error e => .error e

/-- `NarInfo.UnmarshalText` on a fresh manifest (`&NarInfo{}` followed by
`UnmarshalText`, the usage pattern of every caller): split on newlines and
process each line. -/
def narInfoDecode (text : Str) : Except Str NarInfo :=
  narInfoDecodeLines narInfoEmpty (splitOnChar '\n' text)

/-- `NarOutputLines.Add` of a `(key, value)` pair: the line `key: value`. -/
def narLine (key value : Str) : Str := key ++ ':' :: ' ' :: value

/-- The output lines of `NarInfo.MarshalText`, in its fixed emission order;
`Compression` and `Deriver` are skipped when empty, one `Sig` line is
produced per signature, and the extra fields follow (in the model's fixed
admissible iteration order of the Go map). -/
def narInfoEncodeLines (n : NarInfo) : List Str :=
  [narLine (str ("StorePath")) n.storePath, narLine (str ("URL")) n.url]
  ++ (if n.compression = [] then [] else [narLine (str ("Compression")) n.compression])
  ++ [narLine (str ("FileHash")) n.fileHash.string,
      narLine (str ("FileSize")) (natToChars n.fileSize),
      narLine (str ("NarHash")) n.narHash.string,
      narLine (str ("NarSize")) (natToChars n.narSize),
      narLine (str ("References")) (joinSep (str (" ")) n.references)]
  ++ (if n.deriver = [] then [] else [narLine (str ("Deriver")) n.deriver])
  ++ n.sig.map (fun s => narLine (str ("Sig")) s.string)
  ++ n.extra.map (fun p => narLine p.1 p.2)

/-- `NarInfo.MarshalText`: the lines joined by newlines plus a final
newline. -/
def narInfoEncode (n : NarInfo) : Str :=
  joinSep (str ("\n")) (narInfoEncodeLines n) ++ str ("\n")

/-- `commentedLineParser`: split the input into lines, trim each, skip blank
lines and lines starting with `#`, then strip a trailing `" #"` and a
trailing `"\t#"` suffix (in that order, via `strings.CutSuffix`). -/
def commentedLines (input : Str) : List Str :=
  (splitOnChar '\n' input).filterMap (fun rawLine =>
    let line := goTrimSpace rawLine
    if line = [] then none
    else if startsWith line (str ("#")) then none
    else some (cutSuffix (cutSuffix line (str (" #"))) (str ("\t#"))))

/-- `ParsePublicKeys`: parse each bare line as a named public key; lines that
fail to parse are collected in a `failed` list the source then discards, and
the returned error is `nil` (reader errors cannot occur on in-memory
input). -/
def parsePublicKeys (input : Str) : List NamedPublicKey × Option Str :=
  ((commentedLines input).filterMap (fun line => NamedPublicKey.unmarshalText line),
   none)

/-- `ParsePrivateKeys`: same shape as `ParsePublicKeys` for private keys. -/
def parsePrivateKeys (input : Str) : List ParsedPrivateKey × Option Str :=
  ((commentedLines input).filterMap (fun line => ParsedPrivateKey.unmarshalText line),
   none)

/-- One compiled clause of the conditional resigner: the public keys that
must all verify, and the private keys to sign with. -/
structure ResignClause (S : EdScheme) where
  required : List NamedPublicKey
  signing : List (NamedPrivateKey S)

/-- `lo.SliceToMap` keyed by key name (later slice entries win), then map
lookup: the last list entry carrying the name. -/
def pubMapGet (keys : List NamedPublicKey) (name : Str) : Option NamedPublicKey :=
  keys.reverse.find? (fun k => k.keyName == name)

/-- As `pubMapGet`, for private keys. -/
def privMapGet {S : EdScheme} (keys : List (NamedPrivateKey S)) (name : Str) :
    Option (NamedPrivateKey S) :=
  keys.reverse.find? (fun k => k.keyName == name)

/-- `buildSigningMap` on one policy entry `k -> v`: split `k` on `&` and `v`
on `,`; unknown public names are errors unless empty (empty names are
skipped), unknown private names are errors. Produces the clause and the
accumulated error messages. -/
def buildSigningClause (S : EdScheme) (publicKeys : List NamedPublicKey)
    (privateKeys : List (NamedPrivateKey S)) (kv : Str × Str) :
    ResignClause S × List Str :=
  let requiredPublicKeys := splitOnChar '&' kv.1
  let requiredPrivateKeys := splitOnChar ',' kv.2
  let pubStep := fun (acc : List NamedPublicKey × List Str) (key : Str) =>
    match pubMapGet publicKeys key with
    | none =>
      if key = [] then acc
      else (acc.1, acc.2 ++ [str ("requested public key not loaded: ") ++ key])
    | some pk => if key = [] then acc else (acc.1 ++ [pk], acc.2)
  let pubs := requiredPublicKeys.foldl pubStep ([], [])
  let privStep := fun (acc : List (NamedPrivateKey S) × List Str) (key : Str) =>
    match privMapGet privateKeys key with
    | none => (acc.1, acc.2 ++ [str ("requested private key not loaded: ") ++ key])
    | some pk => (acc.1 ++ [pk], acc.2)
  let privs := requiredPrivateKeys.foldl privStep ([], [])
  ({ required := pubs.1, signing := privs.1 }, pubs.2 ++ privs.2)

/-- `buildSigningMap`: compile every policy entry, iterating the Go map in
the model's fixed admissible order, accumulating clauses and setup
errors. -/
def buildSigningMap (S : EdScheme) (publicKeys : List NamedPublicKey)
    (privateKeys : List (NamedPrivateKey S)) (signingMap : GoMap) :
    List (ResignClause S) × List Str :=
  signingMap.foldl
    (fun acc kv =>
      let r := buildSigningClause S publicKeys privateKeys kv
      (acc.1 ++ [r.1], acc.2 ++ r.2))
    ([], [])

/-- The compiled signer closure of one clause: skip unless every required
public key verifies, then sign with every private key, reporting whether any
new signature was applied (`Sign` cannot error in the model, as in practice).
Returns `(didNewSignature, updated manifest)`. -/
def applyResigner (S : EdScheme) (clause : ResignClause S) (n : NarInfo) :
    Bool × NarInfo :=
  if clause.required.all (fun key => (n.verify S key).1) then
    clause.signing.foldl
      (fun acc key =>
        let r := acc.2.sign S key
        (acc.1 || r.1, r.2.2))
      (false, n)
  else (false, n)

/-- The signer loop of the proxy handler: run every compiled clause in
sequence over the manifest. -/
def runSigners (S : EdScheme) (clauses : List (ResignClause S)) (n : NarInfo) :
    Bool × NarInfo :=
  clauses.foldl
    (fun acc c =>
      let r := applyResigner S c acc.2
      (acc.1 || r.1, r.2))
    (false, n)

/-- Stat result of the storage backend (`size` and a formatted
modification-time string). -/
structure StatInfo where
  size : Nat
  modTime : Str
deriving DecidableEq

/-- The object-storage backend visible to the proxy handler, keyed by the
resolved request name: `stat` and `open`-plus-read (`none` is the not-found
error). -/
structure Store where
  stat : Str → Option StatInfo
  contents : Str → Option Str

/-- HTTP method of a request the proxy routes (only GET and HEAD are
registered). -/
inductive HttpMethod
  | get
  | head
deriving DecidableEq

/-- State of `net/http`'s `ResponseWriter` as the handler runs: headers set
so far, the status and headers already on the wire (frozen at the first
`WriteHeader`/`Write`; later `WriteHeader` calls are ignored), and the body
written so far. -/
structure Writer where
  pending : GoMap
  sent : Option (Nat × GoMap)
  body : Str

/-- `w.Header().Set(k, v)`: affects the wire only before headers are sent. -/
def wSetHeader (w : Writer) (k v : Str) : Writer :=
  { w with pending := goMapInsert w.pending k v }

/-- `w.WriteHeader(code)`: sends status and headers once. -/
def wWriteHeader (w : Writer) (code : Nat) : Writer :=
  match w.sent with
  | some _ => w
  | none => { w with sent := some (code, w.pending) }

/-- `w.Write(bs)`: implicit `WriteHeader(200)` on first write, then append
to the body. -/
def wWrite (w : Writer) (bs : Str) : Writer :=
  let w' :=
    match w.sent with
    | some _ => w
    | none => { w with sent := some (200, w.pending) }
  { w' with body := w'.body ++ bs }

/-- Final response of a settled HTTP exchange. -/
structure HttpResponse where
  status : Nat
  headers : GoMap
  body : Str
deriving DecidableEq

/-- Response on the wire once the handler returns (a handler that never
wrote sends `200` with the headers set so far). -/
def wFinal (w : Writer) : HttpResponse :=
  match w.sent with
  | some p => { status := p.1, headers := p.2, body := w.body }
  | none => { status := 200, headers := w.pending, body := w.body }

/-- Header lookup on a response. -/
def respHeader (r : HttpResponse) (k : Str) : Option Str :=
  (r.headers.find? (fun p => p.1 == k)).map (fun p => p.2)

/-- Fresh writer at the start of a request. -/
def wInit : Writer := { pending := [], sent := none, body := [] }

/-- The tail of the proxy handler (its "everything else" branch): set
`Content-Length` and `Last-Modified` from the stat when available; HEAD
returns 200 immediately without opening the object, GET opens it and
streams, or answers 404 with a `Not Found` body. -/
def proxyGeneric (store : Store) (method : HttpMethod) (name : Str)
    (st : Option StatInfo) (w : Writer) : HttpResponse :=
  let w :=
    match st with
    | some s =>
      wSetHeader (wSetHeader w (str ("Content-Length")) (natToChars s.size))
        (str ("Last-Modified")) s.modTime
    | none => w
  if method = HttpMethod.head then wFinal (wWriteHeader w 200)
  else
    match store.contents name with
    | none => wFinal (wWrite (wWriteHeader w 404) (str ("Not Found: ") ++ name))
    | some data => wFinal (wWrite (wWriteHeader w 200) data)

/-- `loadNarInfo`: read the object and decode it as a manifest. -/
def loadNarInfo (store : Store) (name : Str) : Option NarInfo :=
  match store.contents name with
  | none => none
  | some bytes =>
    match narInfoDecode bytes with
    | .ok n => some n
    | .error _ => none

/-- The proxy request handler for a resolved object name (the joined,
cleaned request path is the store key; GET and HEAD are routed here).
Mirrors the source's control flow, including the missing `return` after the
successful GET of `nix-cache-info`, which falls through into the generic
branch and streams the object a second time. -/
def proxyHandle (S : EdScheme) (clauses : List (ResignClause S))
    (store : Store) (method : HttpMethod) (name : Str) : HttpResponse :=
  let st := store.stat name
  let w := wInit
  if name = str ("nix-cache-info") then
    match store.contents name with
    | none =>
      let w := wWriteHeader w 404
      if method = HttpMethod.head then wFinal w
      else wFinal (wWrite w (str ("Not Found: ") ++ name))
    | some data =>
      let w := wSetHeader w (str ("Content-Type")) (str ("text/x-nix-cache-info"))
      let w :=
        match st with
        | some s =>
          wSetHeader
            (wSetHeader w (str ("Content-Length")) (natToChars s.size))
            (str ("Last-Modified")) s.modTime
        | none => w
      let w := wWriteHeader w 200
      if method = HttpMethod.head then wFinal w
      else proxyGeneric store method name st (wWrite w data)
  else if endsWith name (str (".narinfo")) then
    match loadNarInfo store name with
    | none =>
      let w := wWriteHeader w 404
      if method = HttpMethod.head then wFinal w
      else wFinal (wWrite w (str ("Not Found: ") ++ name))
    | some ninfo =>
      let r := runSigners S clauses ninfo
      let content := narInfoEncode r.2
      let w :=
        match st with
        | some s =>
          wSetHeader
            (wSetHeader w (str ("Content-Length")) (natToChars content.length))
            (str ("Last-Modified")) s.modTime
        | none => w
      let w := wSetHeader w (str ("Content-Type")) (str ("text/x-nix-narinfo"))
      let w := wWriteHeader w 200
      if method = HttpMethod.head then wFinal w
      else wFinal (wWrite w content)
  else proxyGeneric store method name st w

/-- A concrete correct deterministic signature scheme instantiating the
abstract Ed25519 interface for witnesses and counterexamples (the theorems
quantified over `EdScheme` hold for it as for the real primitives). -/
def toyEd : EdScheme where
  Priv := Str
  pubOf sk := sk.map Char.toNat
  edSign sk msg := sk.map Char.toNat ++ 124 :: msg.map Char.toNat
  edVerify pk msg s := s == pk ++ 124 :: msg.map Char.toNat
  correct := by
    intro sk msg
    simp

/-- The canonical example manifest of the test suite (bash-5.2p37). -/
def narInfoCanonical : Str :=
  str ("StorePath: /nix/store/58br4vk3q5akf4g8lx0pqzfhn47k3j8d-bash-5.2p37\nURL: nar/1ncdraq4baqrdp773pmrpb6b3pngkym9278z1kg3qkxxj25s3mrw.nar.xz\nCompression: xz\nFileHash: sha256:1ncdraq4baqrdp773pmrpb6b3pngkym9278z1kg3qkxxj25s3mrw\nFileSize: 445184\nNarHash: sha256:07pyb1bl3q4ivh86vx6vjjivfsm1hqrwdfm5d2x8kk7qzysl5j4j\nNarSize: 1654408\nReferences: 58br4vk3q5akf4g8lx0pqzfhn47k3j8d-bash-5.2p37 rmy663w9p7xb202rcln4jjzmvivznmz8-glibc-2.40-66\nDeriver: cfp8jh04f3jfdcjskw2p64ri3w6njndm-bash-5.2p37.drv\nSig: cache.nixos.org-1:jmkQzt2cr2aaXwrftMjybjNktqNZXcb+6LR8auhzEnIGzU9t6A3HU8Y67vraZJpgJ90XPNfkYiqUvXs5yiomAQ==\n")

/-- The empty-`References` example manifest of the test suite
(gcc-14 libgcc); note the trailing space on the `References: ` line. -/
def narInfoEmptyRefs : Str :=
  str ("StorePath: /nix/store/2kgif7n5hi16qhkrnjnv5swnq9aq3qhj-gcc-14-20241116-libgcc\nURL: nar/1xabljs3h2qfbdfl1z0hbm1nvlcl27qlvdb8ib0j39f51rvka2dr.nar.xz\nCompression: xz\nFileHash: sha256:1xabljs3h2qfbdfl1z0hbm1nvlcl27qlvdb8ib0j39f51rvka2dr\nFileSize: 74020\nNarHash: sha256:0wdfccp187mcmnbvk464zypkwdjnyfiwkf7d6q0wfinlk5z67j4i\nNarSize: 201856\nReferences: \nDeriver: ci1f3qvj2i3bgr2wibfxl52cfw0wfks6-gcc-14-20241116.drv\nSig: cache.nixos.org-1:BUOAstUWfupkmoOCjZyXYdtvMX3GzNLSXcTDZEsvUzmlhsSEU+Bxed+dCXfOHBb3Gn7znamBF7aeOwuOMi0YCg==\n")

/-- The multiple-`Sig:`-lines example manifest of the test suite
(clang-src-17.0.6). -/
def narInfoMultiSig : Str :=
  str ("StorePath: /nix/store/s0kylmi4nxahi0jgs7a1cd19q6s00smw-clang-src-17.0.6\nURL: nar/1wbdzanpck57g3r2hwxjczicd20ws2d01hzgr59qiw0g4qmiflji.nar.xz\nCompression: xz\nFileHash: sha256:1wbdzanpck57g3r2hwxjczicd20ws2d01hzgr59qiw0g4qmiflji\nFileSize: 24265320\nNarHash: sha256:11vbjvwfris38n50wpbb5laanxkkkb5iybck4a28cv5i13v2wjw9\nNarSize: 416259664\nReferences: \nDeriver: j6cn8bxikh82jwzwva0nmnq31xl1i20k-clang-src-17.0.6.drv\nSig: cache.nixos.org-1:GnSFytFjswxd8f+VjvVXusiaaT2LN3KCaS3wlJDBOrueGOHKpxhn8KwTWGsPVRaT5mp4cPOg9Cww4mCyjzAfAg==\nSig: test-key-1:p4ZE4Vz3pQ6P3KkVuJM2xQdMlW7sI3g0NND+Z/u/r6IjSMz5vyMWj+qg68uBjJKjc75Fz5tLJicpF/Vc6ocNDA==\n")

/-- The literal fingerprint the specification gives for the canonical
example. -/
def litFingerprint : Str :=
  str ("1;/nix/store/58br4vk3q5akf4g8lx0pqzfhn47k3j8d-bash-5.2p37;sha256:07pyb1bl3q4ivh86vx6vjjivfsm1hqrwdfm5d2x8kk7qzysl5j4j;1654408;/nix/store/58br4vk3q5akf4g8lx0pqzfhn47k3j8d-bash-5.2p37,/nix/store/rmy663w9p7xb202rcln4jjzmvivznmz8-glibc-2.40-66")

/-- The canonical example manifest, decoded. -/
def narInfoCanonicalManifest : NarInfo :=
  match narInfoDecode narInfoCanonical with
  | .ok n => n
  | .error _ => narInfoEmpty

/-- The empty-`References` example manifest, decoded. -/
def narInfoEmptyRefsManifest : NarInfo :=
  match narInfoDecode narInfoEmptyRefs with
  | .ok n => n
  | .error _ => narInfoEmpty

/-- Byte-exact round trip through the codec: the re-encoding of a decoded
input, or `none` when the input is rejected. -/
def narRoundTrip (b : Str) : Option Str :=
  match narInfoDecode b with
  | .ok n => some (narInfoEncode n)
  | .error _ => none

/-- An input the decoder accepts that is not in the emitter's canonical form
(no space after the colon). -/
def c2BadInput : Str := str ("StorePath:x\n")

/-- Claim C2 (counterexample): the byte string `"StorePath:x\n"` is in the
accepted set of the codec, yet re-encoding its decode does not reproduce it,
so `encode(decode(b)) = b` does not hold for every accepted `b`. -/
theorem c2_counterexample :
    (narRoundTrip c2BadInput).isSome = true ∧
    narRoundTrip c2BadInput ≠ some c2BadInput := by
  decide

/-- Claim C2 (amended): byte-exact round trip `encode(decode(b)) = b` holds
for accepted inputs already in the emitter's canonical form, verified for
the canonical example, the empty-`References` manifest and the manifest
carrying multiple `Sig:` lines; accepted inputs in non-canonical form (and
inputs whose several extra fields are re-emitted in the unspecified Go map
iteration order) need not round-trip. -/
theorem c2_amended :
    narRoundTrip narInfoCanonical = some narInfoCanonical ∧
    narRoundTrip narInfoEmptyRefs = some narInfoEmptyRefs ∧
    narRoundTrip narInfoMultiSig = some narInfoMultiSig := by
  refine ⟨by decide, by decide, by decide⟩

/-- A key-file line carrying a trailing comment after the key. -/
def c9KeyLine : Str :=
  str ("k1:AAAAAAAAAAAAAAAAAAAAAAAAAAAAAAAAAAAAAAAAAAA= # comment text")

/-- Claim C9 (code evaluated at the failing input): blank lines, `#` lines
and a bare trailing `" #"` marker are handled, but a real trailing comment
`" # comment text"` is not stripped (`strings.CutSuffix` only removes the
exact two-character suffix), so the commented key line fails to parse and
the key is silently dropped, although the same line without the comment
parses to the key. -/
theorem c9_evaluation :
    commentedLines c9KeyLine = [c9KeyLine] ∧
    (parsePublicKeys c9KeyLine).1 = [] ∧
    NamedPublicKey.unmarshalText
        (str ("k1:AAAAAAAAAAAAAAAAAAAAAAAAAAAAAAAAAAAAAAAAAAA=")) =
      some { keyName := str ("k1"), key := List.replicate 32 0 } ∧
    commentedLines
        (str ("\n  \n# c\n  # c2\nk1:AAAAAAAAAAAAAAAAAAAAAAAAAAAAAAAAAAAAAAAAAAA= #\n")) =
      [str ("k1:AAAAAAAAAAAAAAAAAAAAAAAAAAAAAAAAAAAAAAAAAAA=")] := by
  decide

/-- A key file in which every line is malformed. -/
def c10BadKeyFile : Str := str ("not-a-key\nzz|zz\nk2:notbase64!\n")

/-- A key file mixing one well-formed key line with malformed lines. -/
def c10MixedKeyFile : Str :=
  str ("bad\nk1:AAAAAAAAAAAAAAAAAAAAAAAAAAAAAAAAAAAAAAAAAAA=\nworse line")

/-- Claim C10 (confirmed): the key-file parsers never report a failure for
an individual malformed line — the returned error is always `nil`, the key
list is the successfully parsed lines only, and a file in which every line
is malformed loads as an empty key list with no error. -/
theorem c10_silent_malformed_lines (input : Str) :
    (parsePrivateKeys input).2 = none ∧
    (parsePublicKeys input).2 = none ∧
    (parsePublicKeys input).1 =
      (commentedLines input).filterMap NamedPublicKey.unmarshalText ∧
    (parsePrivateKeys c10BadKeyFile).1 = [] ∧
    (parsePublicKeys c10BadKeyFile).1 = [] ∧
    (parsePublicKeys c10MixedKeyFile).1 =
      [{ keyName := str ("k1"), key := List.replicate 32 0 }] := by
  refine ⟨rfl, rfl, rfl, by decide, by decide, by decide⟩

/-- References list of a decoded manifest, `none` when the input is
rejected. -/
def decodedReferences (b : Str) : Option (List Str) :=
  match narInfoDecode b with
  | .ok m => some m.references
  | .error _ => none

/-- Claim C3 (confirmed): emitting any manifest with an empty `References`
list produces the exact line `References: ` (colon, one trailing space, no
tokens), and the parser maps both `References:` and `References: ` to an
empty list. -/
theorem c3_empty_references (n : NarInfo) (h : n.references = []) :
    str ("References: ") ∈ narInfoEncodeLines n ∧
    decodedReferences (str ("References:\n")) = some [] ∧
    decodedReferences (str ("References: \n")) = some [] := by
  refine ⟨?_, by decide, by decide⟩
  unfold narInfoEncodeLines
  rw [h]
  have e : narLine (str ("References")) (joinSep (str (" ")) ([] : List Str)) =
      str ("References: ") := by decide
  rw [← e]
  simp

/-- Claim C3 witness: the hypothesis and first conclusion instantiated at
the decoded empty-`References` test manifest. -/
theorem c3_empty_references_witness :
    narInfoEmptyRefsManifest.references = [] ∧
    str ("References: ") ∈ narInfoEncodeLines narInfoEmptyRefsManifest :=
  ⟨by decide, (c3_empty_references narInfoEmptyRefsManifest (by decide)).1⟩

theorem str_slash : str ("/") = ['/'] := rfl

theorem str_dot : str (".") = ['.'] := rfl

theorem str_dotdot : str ("..") = ['.', '.'] := rfl

/-- A plain path segment: non-empty, without `/`, and neither `.` nor
`..` — a segment `path.Clean` passes through untouched. -/
def plainSeg (s : Str) : Bool :=
  !(s = []) && s.all (fun c => !(c = '/')) && !(s = ['.']) && !(s = ['.', '.'])

/-- A clean rooted directory other than the root itself: starts with `/`,
is not `"/"`, and is a fixed point of `path.Clean`. -/
def cleanAbsDir (d : Str) : Bool :=
  startsWith d (str ("/")) && !(d = ['/']) && (goPathClean d = d)

theorem splitOnChar_ne_nil (c : Char) (s : Str) : splitOnChar c s ≠ [] := by
  induction s with
  | nil => simp [splitOnChar]
  | cons x xs ih =>
    simp only [splitOnChar]
    by_cases hx : x = c
    · simp [hx]
    · simp only [if_neg hx]
      cases hsp : splitOnChar c xs with
      | nil => simp
      | cons s rest => simp

theorem splitOnChar_append_cons (c : Char) (xs ys : Str) :
    splitOnChar c (xs ++ c :: ys) = splitOnChar c xs ++ splitOnChar c ys := by
  induction xs with
  | nil => simp [splitOnChar]
  | cons x xs ih =>
    by_cases hx : x = c
    · subst hx
      simp only [List.cons_append, splitOnChar, if_pos rfl, List.append_eq]
      rw [ih]
      simp
    · simp only [List.cons_append, splitOnChar, if_neg hx, List.append_eq]
      rw [ih]
      cases hsp : splitOnChar c xs with
      | nil => exact absurd hsp (splitOnChar_ne_nil c xs)
      | cons s rest => simp [hsp]

theorem splitOnChar_no_sep (c : Char) (s : Str)
    (h : s.all (fun x => !(x = c)) = true) : splitOnChar c s = [s] := by
  induction s with
  | nil => rfl
  | cons x xs ih =>
    simp only [List.all_cons, Bool.and_eq_true] at h
    have hx : ¬ x = c := by simpa using h.1
    simp only [splitOnChar, if_neg hx, ih h.2]

theorem joinSep_append_single (sep y : Str) (xs : List Str) (h : xs ≠ []) :
    joinSep sep (xs ++ [y]) = joinSep sep xs ++ sep ++ y := by
  induction xs with
  | nil => exact absurd rfl h
  | cons x xs ih =>
    cases xs with
    | nil => simp [joinSep]
    | cons x' xs' =>
      have step := ih (by simp)
      calc joinSep sep ((x :: x' :: xs') ++ [y])
          = x ++ sep ++ joinSep sep ((x' :: xs') ++ [y]) := rfl
        _ = x ++ sep ++ (joinSep sep (x' :: xs') ++ sep ++ y) := by rw [step]
        _ = (x ++ sep ++ joinSep sep (x' :: xs')) ++ sep ++ y := by
            simp [List.append_assoc]
        _ = joinSep sep (x :: x' :: xs') ++ sep ++ y := rfl

theorem cleanStep_plain (rooted : Bool) (stack : List Str) (seg : Str)
    (h : plainSeg seg = true) : cleanStep rooted stack seg = seg :: stack := by
  simp only [plainSeg, Bool.and_eq_true, Bool.not_eq_true',
    decide_eq_false_iff_not] at h
  obtain ⟨⟨⟨h1, _⟩, h3⟩, h4⟩ := h
  simp [cleanStep, str_dot, str_dotdot, h1, h3, h4]

/-- `path.Clean` of a rooted path: a slash followed by the processed
segments rejoined. -/
theorem goPathClean_rooted (p : Str) (hp : startsWith p (str ("/")) = true) :
    goPathClean p = '/' :: joinSep (str ("/"))
      (((splitOnChar '/' p).foldl (cleanStep true) []).reverse) := by
  have hne : p ≠ [] := by
    cases p with
    | nil => rw [str_slash] at hp; simp [startsWith] at hp
    | cons x xs => simp
  unfold goPathClean
  rw [if_neg hne, hp]
  simp

/-- `path.Join` of a clean rooted directory and a plain segment is plain
concatenation with a slash: the `Clean` inside `Join` changes nothing. -/
theorem goPathJoin_plain (d ref : Str) (hd : cleanAbsDir d = true)
    (hr : plainSeg ref = true) : goPathJoin d ref = d ++ '/' :: ref := by
  simp only [cleanAbsDir, Bool.and_eq_true, Bool.not_eq_true',
    decide_eq_false_iff_not, decide_eq_true_eq] at hd
  obtain ⟨⟨hroot, hnotroot⟩, hfix⟩ := hd
  have hrplain := hr
  simp only [plainSeg, Bool.and_eq_true, Bool.not_eq_true',
    decide_eq_false_iff_not] at hrplain
  obtain ⟨⟨⟨hrne, hrnosl⟩, _⟩, _⟩ := hrplain
  obtain ⟨rest, rfl⟩ : ∃ rest, d = '/' :: rest := by
    cases d with
    | nil => rw [str_slash] at hroot; simp [startsWith] at hroot
    | cons x d' =>
      rw [str_slash] at hroot
      simp only [startsWith, Bool.and_eq_true, decide_eq_true_eq] at hroot
      exact ⟨d', by rw [hroot.1]⟩
  have hrest : rest ≠ [] := by
    intro hc
    exact hnotroot (by rw [hc])
  -- evaluate the Join down to `Clean (d ++ "/" ++ ref)`
  unfold goPathJoin
  have hfilter : [('/' :: rest), ref].filter (fun e => !(e = [])) =
      [('/' :: rest), ref] := by
    simp [List.filter, hrne]
  rw [hfilter]
  have hjoined : joinSep (str ("/")) [('/' :: rest), ref] =
      ('/' :: rest) ++ '/' :: ref := by
    simp [joinSep, str_slash]
  rw [hjoined]
  rw [if_neg (by simp)]
  -- evaluate the Clean of the concatenation
  have hrooted : startsWith (('/' :: rest) ++ '/' :: ref) (str ("/")) = true := by
    rw [str_slash]
    simp [startsWith]
  rw [goPathClean_rooted _ hrooted]
  have hsplitref : splitOnChar '/' ref = [ref] :=
    splitOnChar_no_sep '/' ref hrnosl
  have hsplit : splitOnChar '/' (('/' :: rest) ++ '/' :: ref) =
      splitOnChar '/' ('/' :: rest) ++ [ref] := by
    rw [splitOnChar_append_cons, hsplitref]
  rw [hsplit, List.foldl_append]
  simp only [List.foldl_cons, List.foldl_nil]
  rw [cleanStep_plain true _ ref hr]
  -- relate the stack of `d` to `d` through the fixed-point hypothesis
  have hrootd : startsWith ('/' :: rest) (str ("/")) = true := by
    rw [str_slash]; simp [startsWith]
  rw [goPathClean_rooted _ hrootd] at hfix
  have hfix' : joinSep (str ("/"))
      (((splitOnChar '/' ('/' :: rest)).foldl (cleanStep true) []).reverse) =
      rest := by
    injection hfix
  have hstackne :
      ((splitOnChar '/' ('/' :: rest)).foldl (cleanStep true) []) ≠ [] := by
    intro hc
    rw [hc] at hfix'
    simp [joinSep] at hfix'
    exact hrest hfix'
  simp only [List.reverse_cons]
  rw [joinSep_append_single _ _ _ (by simpa using hstackne)]
  rw [hfix']
  simp [str_slash]

/-- The fingerprint formula exactly as the specification words it:
`"1;" + StorePath + ";" + hash_name ":" nix32(NarHash) + ";" + NarSize in
decimal + ";" + join(",", [dirname(StorePath) + "/" + ref])`. -/
def specFingerprint (n : NarInfo) : Str :=
  str ("1;") ++ n.storePath ++ str (";") ++
    (n.narHash.hashName ++ str (":") ++ nix32Encode n.narHash.hash) ++
    str (";") ++ natToChars n.narSize ++ str (";") ++
    joinSep (str (","))
      (n.references.map (fun ref => goPathDir n.storePath ++ str ("/") ++ ref))

/-- A manifest whose reference `".."` makes `path.Join`'s cleaning visible. -/
def c1CounterManifest : NarInfo :=
  { narInfoEmpty with
    storePath := str ("/nix/store/aaa-pkg")
    narHash := { hashName := str ("sha256"), hash := [1] }
    narSize := 7
    references := [str ("..")] }

/-- Claim C1 (counterexample): `Fingerprint` does not return the literal
`dirname(StorePath) + "/" + ref` formula for every manifest — the code joins
with `path.Join`, which cleans the path, so a manifest with reference `".."`
produces `/nix` where the formula says `/nix/store/..`. -/
theorem c1_counterexample :
    NarInfo.fingerprint c1CounterManifest ≠ specFingerprint c1CounterManifest := by
  decide

/-- Claim C1 (amended): for every manifest whose store-path directory is a
clean rooted directory (not `/` itself) and whose references are plain
segments (non-empty, no `/`, not `.` or `..`), with a non-empty hash name,
`Fingerprint` returns exactly
`"1;" + StorePath + ";" + hash_name ":" nix32 + ";" + NarSize + ";" +`
the comma-joined `dirname(StorePath) + "/" + ref` list (empty when
`References` is empty). -/
theorem c1_fingerprint_formula (n : NarInfo)
    (h1 : cleanAbsDir (goPathDir n.storePath) = true)
    (h2 : n.references.all plainSeg = true)
    (h3 : n.narHash.hashName ≠ []) :
    n.fingerprint = specFingerprint n := by
  have hhash : n.narHash.string =
      n.narHash.hashName ++ str (":") ++ nix32Encode n.narHash.hash := by
    unfold TypedNixHash.string
    rw [if_neg (by simpa using h3)]
    simp [show str (":") = [':'] from rfl]
  have hrefs : n.references.map
        (fun ref => goPathJoin (goPathDir n.storePath) ref) =
      n.references.map
        (fun ref => goPathDir n.storePath ++ str ("/") ++ ref) := by
    apply List.map_congr_left
    intro ref hm
    have hp : plainSeg ref = true := by
      have := List.all_eq_true.mp h2 ref hm
      simpa using this
    rw [goPathJoin_plain _ _ h1 hp]
    simp [str_slash]
  unfold NarInfo.fingerprint specFingerprint
  simp only []
  rw [hhash, hrefs]

/-- Claim C1 witness: the amended theorem instantiated at the decoded
canonical example manifest, whose fingerprint is also checked against the
literal fingerprint string of the specification. -/
theorem c1_fingerprint_formula_witness :
    cleanAbsDir (goPathDir narInfoCanonicalManifest.storePath) = true ∧
    narInfoCanonicalManifest.references.all plainSeg = true ∧
    narInfoCanonicalManifest.narHash.hashName ≠ [] ∧
    narInfoCanonicalManifest.fingerprint = specFingerprint narInfoCanonicalManifest ∧
    narInfoCanonicalManifest.fingerprint = litFingerprint :=
  ⟨by decide, by decide, by decide,
   c1_fingerprint_formula narInfoCanonicalManifest (by decide) (by decide)
     (by decide),
   by decide⟩

theorem beqComm {α : Type} [BEq α] [LawfulBEq α] (a b : α) : (a == b) = (b == a) := by
  by_cases h : a = b
  · subst h; rfl
  · rw [beq_eq_false_iff_ne.mpr h, beq_eq_false_iff_ne.mpr (Ne.symm h)]

/-- Claim C6 (confirmed): `Verify` returns exactly the signatures whose
bytes verify against the fingerprint under the key material, with a flag
that is true iff the list is non-empty; any signature of the manifest whose
bytes verify is among the matches (the key name is never consulted). -/
theorem c6_verify_matches (S : EdScheme) (n : NarInfo) (key : NamedPublicKey) :
    (n.verify S key).2 =
      n.sig.filter (fun s => S.edVerify key.key n.fingerprint s.signature) ∧
    ((n.verify S key).1 = true ↔ (n.verify S key).2 ≠ []) ∧
    (∀ s ∈ n.sig, S.edVerify key.key n.fingerprint s.signature = true →
      s ∈ (n.verify S key).2) := by
  refine ⟨rfl, ?_, ?_⟩
  · simp only [NarInfo.verify, decide_eq_true_eq]
    exact List.length_pos
  · intro s hmem hv
    simp only [NarInfo.verify]
    exact List.mem_filter.mpr ⟨hmem, hv⟩

/-- Public key used by the C6 witness, named differently from the signature
it verifies. -/
def c6Key : NamedPublicKey :=
  { keyName := str ("k"), key := toyEd.pubOf (str ("kk")) }

/-- A signature over the empty manifest's fingerprint whose advisory name
differs from the verifying key's name. -/
def c6Sig : NixSignature :=
  { keyName := str ("other"),
    signature := toyEd.edSign (str ("kk")) (NarInfo.fingerprint narInfoEmpty) }

/-- Manifest carrying only the differently-named signature. -/
def c6Manifest : NarInfo := { narInfoEmpty with sig := [c6Sig] }

/-- Claim C6 witness: a signature whose `KeyName` differs from the key's
name but whose bytes verify is reported as a match. -/
theorem c6_verify_matches_witness :
    c6Sig.keyName ≠ c6Key.keyName ∧
    c6Sig ∈ (NarInfo.verify toyEd c6Manifest c6Key).2 :=
  ⟨by decide,
   (c6_verify_matches toyEd c6Manifest c6Key).2.2 c6Sig (by decide) (by decide)⟩

/-- Claim C5 (counterexample): `Sign` does not append for every manifest —
on a manifest already carrying the very signature `Sign` would compute, the
first call reports `added = false` and two consecutive calls leave the
signature count unchanged rather than increasing it by one. -/
theorem c5_counterexample :
    (NarInfo.sign toyEd
      { narInfoEmpty with
        sig := [{ keyName := str ("K"),
                  signature := toyEd.edSign (str ("kk"))
                    (NarInfo.fingerprint narInfoEmpty) }] }
      { keyName := str ("K"), key := str ("kk") }).1 = false ∧
    ((NarInfo.sign toyEd
      ((NarInfo.sign toyEd
        { narInfoEmpty with
          sig := [{ keyName := str ("K"),
                    signature := toyEd.edSign (str ("kk"))
                      (NarInfo.fingerprint narInfoEmpty) }] }
        { keyName := str ("K"), key := str ("kk") }).2.2)
      { keyName := str ("K"), key := str ("kk") }).2.2).sig.length = 1 := by
  decide

/-- Claim C5 (amended): provided the manifest does not already carry the
identical `(name, bytes)` signature that `Sign` computes, the first `Sign`
appends (`added = true`) a signature that `Verify` accepts under the key's
public half, and a second consecutive `Sign` is a no-op (`added = false`):
over the two calls the signature count increases by exactly one. -/
theorem c5_sign_verify (S : EdScheme) (n : NarInfo) (key : NamedPrivateKey S)
    (h : n.sig.any (fun e => e.keyName == (n.makeSignature S key).keyName &&
        e.signature == (n.makeSignature S key).signature) = false) :
    (n.sign S key).1 = true ∧
    ((n.sign S key).2.2.verify S key.publicKey).1 = true ∧
    ((n.sign S key).2.2.sign S key).1 = false ∧
    ((n.sign S key).2.2.sign S key).2.2.sig.length = n.sig.length + 1 := by
  have hsign : n.sign S key =
      (true, n.makeSignature S key,
        { n with sig := n.sig ++ [n.makeSignature S key] }) := by
    simp only [NarInfo.sign]
    rw [h]
    simp
  have hmk : ({ n with sig := n.sig ++ [n.makeSignature S key] } : NarInfo).makeSignature
      S key = n.makeSignature S key := rfl
  have hany : (n.sig ++ [n.makeSignature S key]).any
      (fun e => e.keyName == (n.makeSignature S key).keyName &&
        e.signature == (n.makeSignature S key).signature) = true := by
    rw [List.any_append]
    simp
  have hsign2 : ({ n with sig := n.sig ++ [n.makeSignature S key] } : NarInfo).sign
      S key =
      (false, n.makeSignature S key,
        { n with sig := n.sig ++ [n.makeSignature S key] }) := by
    simp only [NarInfo.sign, hmk]
    rw [hany]
    simp
  refine ⟨by rw [hsign], ?_, ?_, ?_⟩
  · rw [hsign]
    simp only [NarInfo.verify]
    rw [List.filter_append]
    have hv : S.edVerify key.publicKey.key
        ({ n with sig := n.sig ++ [n.makeSignature S key] } : NarInfo).fingerprint
        (n.makeSignature S key).signature = true := S.correct key.key n.fingerprint
    simp [hv]
  · rw [hsign, hsign2]
  · rw [hsign, hsign2]
    simp

/-- Claim C5 witness: the amended theorem at the empty manifest and a
concrete key of the toy scheme. -/
theorem c5_sign_verify_witness :
    (NarInfo.sign toyEd narInfoEmpty
      { keyName := str ("K"), key := str ("kk") }).1 = true ∧
    ((NarInfo.sign toyEd narInfoEmpty
      { keyName := str ("K"), key := str ("kk") }).2.2.sign toyEd
      { keyName := str ("K"), key := str ("kk") }).2.2.sig.length =
      narInfoEmpty.sig.length + 1 := by
  have h := c5_sign_verify toyEd narInfoEmpty
    { keyName := str ("K"), key := str ("kk") } (by decide)
  exact ⟨h.1, h.2.2.2⟩

/-- Key, freshly-computed signature and manifest for the C4
counterexample: the manifest carries the identical computed signature first
and a differing same-named signature after it. -/
def c4Key : NamedPrivateKey toyEd := { keyName := str ("N"), key := str ("kp") }

/-- The signature `SignReplaceByName` would compute over the empty
manifest's fingerprint. -/
def c4Sig : NixSignature :=
  { keyName := str ("N"),
    signature := toyEd.edSign (str ("kp")) (NarInfo.fingerprint narInfoEmpty) }

/-- Manifest listing the identical signature before a differing one of the
same name. -/
def c4Manifest : NarInfo :=
  { narInfoEmpty with
    sig := [c4Sig, { keyName := str ("N"), signature := [9, 9] }] }

/-- Claim C4 (counterexample): on a manifest whose signature list contains
an entry named `N` with differing bytes (here after an identical entry),
`SignReplaceByName` stops at the first name match, reports `added = false`,
and leaves two entries named `N` in place — not exactly one. -/
theorem c4_counterexample :
    (c4Manifest.sig.any (fun e => e.keyName == c4Key.keyName &&
      !(e.signature == (c4Manifest.makeSignature toyEd c4Key).signature))) =
      true ∧
    (c4Manifest.signReplaceByName toyEd c4Key).1 = false ∧
    ((c4Manifest.signReplaceByName toyEd c4Key).2.2.sig.filter
      (fun e => e.keyName == c4Key.keyName)).length = 2 := by
  decide

/-- Claim C4 (amended): provided additionally that no entry equals the
computed signature exactly, `SignReplaceByName` on a manifest carrying a
same-named entry with differing bytes reports `added = true`, leaves exactly
one entry with the key's name — the newly computed signature — and keeps the
entries with other names unchanged in order. -/
theorem c4_replace_by_name (S : EdScheme) (n : NarInfo)
    (key : NamedPrivateKey S)
    (h1 : n.sig.any (fun e => e.keyName == key.keyName &&
        !(e.signature == (n.makeSignature S key).signature)) = true)
    (h2 : n.sig.all (fun e => !(e.keyName == key.keyName &&
        e.signature == (n.makeSignature S key).signature)) = true) :
    (n.signReplaceByName S key).1 = true ∧
    (n.signReplaceByName S key).2.2.sig.filter
        (fun e => e.keyName == key.keyName) = [n.makeSignature S key] ∧
    (n.signReplaceByName S key).2.2.sig.filter
        (fun e => !(e.keyName == key.keyName)) =
      n.sig.filter (fun e => !(e.keyName == key.keyName)) := by
  have hname : (n.makeSignature S key).keyName = key.keyName := rfl
  obtain ⟨e', hmem', hprop'⟩ := List.any_eq_true.mp h1
  have hfindSome : (n.sig.find? (fun e => e.keyName == key.keyName)).isSome := by
    refine List.find?_isSome.mpr ⟨e', hmem', ?_⟩
    have hp := hprop'
    rw [Bool.and_eq_true] at hp
    exact hp.1
  obtain ⟨e0, hfind⟩ := Option.isSome_iff_exists.mp hfindSome
  have he0mem : e0 ∈ n.sig := List.mem_of_find?_eq_some hfind
  have he0name : (e0.keyName == key.keyName) = true := by
    have := List.find?_some hfind
    simpa using this
  have he0sig : (e0.signature == (n.makeSignature S key).signature) = false := by
    have hall := List.all_eq_true.mp h2 e0 he0mem
    simp only [Bool.not_eq_true'] at hall
    cases hsig : e0.signature == (n.makeSignature S key).signature with
    | false => rfl
    | true => rw [he0name, hsig] at hall; simp at hall
  have hstep : n.signReplaceByName S key =
      (true, n.makeSignature S key,
        { n.removeSigsByNames [key.keyName] with
          sig := (n.removeSigsByNames [key.keyName]).sig ++
            [n.makeSignature S key] }) := by
    simp only [NarInfo.signReplaceByName, hname]
    rw [hfind]
    dsimp only
    rw [if_neg (by simp [he0sig])]
  rw [hstep]
  have hremove : (n.removeSigsByNames [key.keyName]).sig =
      n.sig.filter (fun e => !(e.keyName == key.keyName)) := by
    simp only [NarInfo.removeSigsByNames]
    congr 1
    funext e
    simp only [List.any_cons, List.any_nil, Bool.or_false]
    rw [beqComm]
  refine ⟨rfl, ?_, ?_⟩
  · simp only [hremove]
    rw [List.filter_append, List.filter_filter]
    have hnil : n.sig.filter
        (fun a => a.keyName == key.keyName && !(a.keyName == key.keyName)) =
        [] := by
      apply List.filter_eq_nil_iff.mpr
      intro a _
      cases hx : a.keyName == key.keyName <;> simp [hx]
    rw [hnil]
    simp [hname]
  · simp only [hremove]
    rw [List.filter_append, List.filter_filter]
    have hsingle : ([n.makeSignature S key].filter
        (fun e => !(e.keyName == key.keyName))) = [] := by
      simp [hname]
    rw [hsingle]
    simp

/-- Manifest for the C4 witness: a single same-named signature with
differing bytes. -/
def c4wManifest : NarInfo :=
  { narInfoEmpty with
    sig := [{ keyName := str ("N"), signature := [9, 9] }] }

/-- Claim C4 witness: the amended theorem at a concrete manifest carrying
one stale signature named `N`. -/
theorem c4_replace_by_name_witness :
    (c4wManifest.signReplaceByName toyEd c4Key).1 = true ∧
    (c4wManifest.signReplaceByName toyEd c4Key).2.2.sig.filter
        (fun e => e.keyName == c4Key.keyName) =
      [c4wManifest.makeSignature toyEd c4Key] :=
  ⟨(c4_replace_by_name toyEd c4wManifest c4Key (by decide) (by decide)).1,
   (c4_replace_by_name toyEd c4wManifest c4Key (by decide) (by decide)).2.1⟩

/-- Private key `X` of the C7 policy scenario. -/
def c7PrivX : NamedPrivateKey toyEd := { keyName := str ("X"), key := str ("xx") }

/-- Private key `Y` of the C7 policy scenario. -/
def c7PrivY : NamedPrivateKey toyEd := { keyName := str ("Y"), key := str ("yy") }

/-- Public key `A` of the C7 policy scenario. -/
def c7PubA : NamedPublicKey :=
  { keyName := str ("A"), key := toyEd.pubOf (str ("aa")) }

/-- The policy map after declaring `"A" -> "X"` and then `"A" -> "Y"`: a Go
map assignment with an existing key overwrites, leaving a single entry. -/
def c7Map : GoMap :=
  goMapInsert (goMapInsert [] (str ("A")) (str ("X"))) (str ("A")) (str ("Y"))

/-- A manifest verifying under public key `A`. -/
def c7Manifest : NarInfo :=
  { narInfoEmpty with
    sig := [{ keyName := str ("A"),
              signature := toyEd.edSign (str ("aa"))
                (NarInfo.fingerprint narInfoEmpty) }] }

/-- The clauses the resigner compiles from the C7 policy map. -/
def c7Clauses : List (ResignClause toyEd) :=
  (buildSigningMap toyEd [c7PubA] [c7PrivX, c7PrivY] c7Map).1

/-- Claim C7 (counterexample): after declaring `"A" -> ["X"]` and then
`"A" -> ["Y"]` in the policy map, the compiled resigner appends only the `Y`
signature to a manifest verifying under `A` — the `X` signature is never
applied, because the second map assignment overwrote the first. -/
theorem c7_counterexample :
    (buildSigningMap toyEd [c7PubA] [c7PrivX, c7PrivY] c7Map).2 = [] ∧
    (runSigners toyEd c7Clauses c7Manifest).2.sig =
      c7Manifest.sig ++ [c7Manifest.makeSignature toyEd c7PrivY] ∧
    ¬ c7Manifest.makeSignature toyEd c7PrivX ∈
        (runSigners toyEd c7Clauses c7Manifest).2.sig := by
  decide

/-- Claim C7 (amended): the policy is a Go map, so declaring a second clause
with the same public-key specifier overwrites the first — in general
inserting `k -> v1` and then `k -> v2` leaves the map exactly as inserting
`k -> v2` alone — and on the concrete scenario only the `Y` signature is
appended; across distinct specifiers, clause application order follows the
map's unspecified iteration order, not declaration order. -/
theorem c7_map_overwrite :
    (∀ (m : GoMap) (k v1 v2 : Str),
      goMapInsert (goMapInsert m k v1) k v2 = goMapInsert m k v2) ∧
    (runSigners toyEd c7Clauses c7Manifest).2.sig =
      c7Manifest.sig ++ [c7Manifest.makeSignature toyEd c7PrivY] := by
  constructor
  · intro m k v1 v2
    induction m with
    | nil => simp [goMapInsert]
    | cons p rest ih =>
      obtain ⟨k', v'⟩ := p
      by_cases hk : k' = k
      · simp [goMapInsert, hk]
      · simp [goMapInsert, hk, ih]
  · decide

/-- A store with no objects at all. -/
def c8EmptyStore : Store := { stat := fun _ => none, contents := fun _ => none }

/-- Claim C8 (counterexample): HEAD/GET parity fails for a path that does
not exist in the backing store and is neither a `.narinfo` nor
`nix-cache-info`: GET answers 404, while HEAD answers 200 because the
handler's generic branch returns 200 for HEAD without ever opening the
object. -/
theorem c8_counterexample :
    (proxyHandle toyEd [] c8EmptyStore HttpMethod.get (str ("missing"))).status =
      404 ∧
    (proxyHandle toyEd [] c8EmptyStore HttpMethod.head (str ("missing"))).status =
      200 := by
  decide

/-- Claim C8 (amended): for every `*.narinfo` path — in particular after
resigning — and for `nix-cache-info`, the status code and `Content-Length`
header of a HEAD response equal those of a GET against the same stored
state, and the HEAD response carries no body; for other paths parity can
fail when the object is missing. -/
theorem c8_head_get_parity (S : EdScheme) (clauses : List (ResignClause S))
    (store : Store) (name : Str)
    (h : endsWith name (str (".narinfo")) = true ∨
      name = str ("nix-cache-info")) :
    (proxyHandle S clauses store HttpMethod.get name).status =
      (proxyHandle S clauses store HttpMethod.head name).status ∧
    respHeader (proxyHandle S clauses store HttpMethod.get name)
        (str ("Content-Length")) =
      respHeader (proxyHandle S clauses store HttpMethod.head name)
        (str ("Content-Length")) ∧
    (proxyHandle S clauses store HttpMethod.head name).body = [] := by
  rcases h with h | h
  · have hne : ¬ name = str ("nix-cache-info") := by
      intro hc
      subst hc
      exact absurd h (by decide)
    unfold proxyHandle
    rw [if_neg hne, if_neg hne, if_pos h, if_pos h]
    cases hld : loadNarInfo store name with
    | none =>
      cases hst : store.stat name with
      | none => simp [wFinal, wWrite, wWriteHeader, wInit, respHeader]
      | some s => simp [wFinal, wWrite, wWriteHeader, wInit, respHeader]
    | some ninfo =>
      cases hst : store.stat name with
      | none => simp [wFinal, wWrite, wWriteHeader, wSetHeader, wInit, respHeader]
      | some s => simp [wFinal, wWrite, wWriteHeader, wSetHeader, wInit, respHeader]
  · subst h
    unfold proxyHandle
    rw [if_pos rfl, if_pos rfl]
    cases hc : store.contents (str ("nix-cache-info")) with
    | none =>
      cases hst : store.stat (str ("nix-cache-info")) with
      | none => simp [wFinal, wWrite, wWriteHeader, wInit, respHeader]
      | some s => simp [wFinal, wWrite, wWriteHeader, wInit, respHeader]
    | some data =>
      cases hst : store.stat (str ("nix-cache-info")) with
      | none =>
        simp [proxyGeneric, wFinal, wWrite, wWriteHeader, wSetHeader, wInit,
          respHeader, hc]
      | some s =>
        simp [proxyGeneric, wFinal, wWrite, wWriteHeader, wSetHeader, wInit,
          respHeader, hc]

/-- Claim C8 witness: the parity theorem at a concrete missing `.narinfo`
path and at the `nix-cache-info` path of the same empty store (both methods
answer 404 with equal absent `Content-Length`). -/
theorem c8_head_get_parity_witness :
    (endsWith (str ("x.narinfo")) (str (".narinfo")) = true ∧
      (proxyHandle toyEd [] c8EmptyStore HttpMethod.get (str ("x.narinfo"))).status =
        (proxyHandle toyEd [] c8EmptyStore HttpMethod.head (str ("x.narinfo"))).status) ∧
    (proxyHandle toyEd [] c8EmptyStore HttpMethod.get (str ("nix-cache-info"))).status =
      (proxyHandle toyEd [] c8EmptyStore HttpMethod.head (str ("nix-cache-info"))).status :=
  ⟨⟨by decide,
    (c8_head_get_parity toyEd [] c8EmptyStore (str ("x.narinfo"))
      (Or.inl (by decide))).1⟩,
   (c8_head_get_parity toyEd [] c8EmptyStore (str ("nix-cache-info"))
      (Or.inr (by decide))).1⟩

end NixSigman
